import Mathlib

/-!
Verification of the usb-billboard debug client (src/main.rs) against its
natural-language specification.  The Rust source is shallowly embedded:
bytes are `Nat`, strings are `List Char`, fallible operations return
`Option`/`Except`, and the concurrent tasks are modelled as pure step
functions over explicit state plus oracles for the device responses.
-/

/-! ## Echo-suppression decoder (logger task of `run_log_console`)

The logger task keeps two pieces of state: the shared `suppress_echo`
flag and the local `last_char_was_cr` flag (main.rs lines 170, 178).
`process_byte` is the body of the `for &b in valid_bytes` loop
(main.rs lines 190-205): while suppressing, a byte is dropped, and the
flag is cleared when the byte is a LF immediately preceded by a CR;
otherwise the byte is collected into the output buffer.  In both cases
`last_char_was_cr` becomes `b == '\r'`. -/

structure EchoState where
  suppressing : Bool
  lastByteWasCR : Bool
  deriving DecidableEq, Repr

def process_byte (st : EchoState) (b : Nat) : EchoState × List Nat :=
  if st.suppressing then
    if b == 10 && st.lastByteWasCR then
      ({ suppressing := false, lastByteWasCR := b == 13 }, [])
    else
      ({ suppressing := st.suppressing, lastByteWasCR := b == 13 }, [])
  else
    ({ suppressing := st.suppressing, lastByteWasCR := b == 13 }, [b])

/-- Folding the loop body over a list of bytes, collecting the output
buffer (main.rs lines 188-205). -/
def process_bytes : EchoState → List Nat → EchoState × List Nat
  | st, [] => (st, [])
  | st, b :: rest =>
      ((process_bytes (process_byte st b).1 rest).1,
       (process_byte st b).2 ++ (process_bytes (process_byte st b).1 rest).2)

/-- Valid bytes of a log frame: `data.iter().position(|&x| x == 0).unwrap_or(data.len())`
then the slice `&data[0..valid_len]` (main.rs lines 183-184).
`List.findIdx` returns the length when no element matches, exactly like
`position(..).unwrap_or(len)`. -/
def frame_valid (data : List Nat) : List Nat :=
  data.take (data.findIdx (fun x => x == 0))

def process_frame (st : EchoState) (data : List Nat) : EchoState × List Nat :=
  process_bytes st (frame_valid data)

/-- Processing a sequence of frames, threading the decoder state across
frame boundaries as the logger loop does. -/
def process_frames : EchoState → List (List Nat) → EchoState × List Nat
  | st, [] => (st, [])
  | st, f :: rest =>
      ((process_frames (process_frame st f).1 rest).1,
       (process_frame st f).2 ++ (process_frames (process_frame st f).1 rest).2)

/-- Specification-side function: the suffix of the stream strictly after
the first CR-LF pair (`\r` immediately followed by `\n`), scanning with a
pending carry for a CR seen just before the given bytes; `none` when no
such pair occurs. -/
def after_first_crlf : Bool → List Nat → Option (List Nat)
  | _, [] => none
  | lastCR, b :: rest =>
      if b == 10 && lastCR then some rest else after_first_crlf (b == 13) rest

/-! ## Strings and hex parsing

Rust strings are modelled as `List Char`.  `is_rust_ws` is
`char::is_whitespace` restricted to the ASCII whitespace characters
(the inputs of this program are ASCII command lines). -/

def is_rust_ws (c : Char) : Bool :=
  c == ' ' || c == '\t' || c == '\n' || c == '\r' || c == '\x0b' || c == '\x0c'

/-- Rust `str::trim`: removes leading and trailing whitespace. -/
def rust_trim (cs : List Char) : List Char :=
  ((cs.dropWhile is_rust_ws).reverse.dropWhile is_rust_ws).reverse

def split_ws_aux (cur : List Char) : List Char → List (List Char)
  | [] => if cur.isEmpty then [] else [cur.reverse]
  | c :: rest =>
      if is_rust_ws c then
        if cur.isEmpty then split_ws_aux [] rest
        else cur.reverse :: split_ws_aux [] rest
      else split_ws_aux (c :: cur) rest

/-- Rust `str::split_whitespace`: tokens separated by runs of whitespace,
no empty tokens. -/
def split_whitespace (cs : List Char) : List (List Char) :=
  split_ws_aux [] cs

/-- Rust `char::to_digit(16)`: value of a hexadecimal digit. -/
def hexDigitVal? (c : Char) : Option Nat :=
  if 48 ≤ c.toNat ∧ c.toNat ≤ 57 then some (c.toNat - 48)
  else if 97 ≤ c.toNat ∧ c.toNat ≤ 102 then some (c.toNat - 87)
  else if 65 ≤ c.toNat ∧ c.toNat ≤ 70 then some (c.toNat - 55)
  else none

/-- Digit-accumulation loop of Rust `u16::from_str_radix(_, 16)`:
each step multiplies by 16 and adds the digit with an overflow check
against `u16::MAX` (checked_mul/checked_add). -/
def fsr16_go : Nat → List Char → Option Nat
  | acc, [] => some acc
  | acc, c :: rest =>
      match hexDigitVal? c with
      | none => none
      | some d => if acc * 16 + d ≤ 65535 then fsr16_go (acc * 16 + d) rest else none

/-- Rust `u16::from_str_radix(s, 16)`: an optional single leading `+`
sign (a `-` is rejected for an unsigned type), then at least one hex
digit; empty digit strings and overflow beyond `u16::MAX` are errors. -/
def from_str_radix_16 (cs : List Char) : Option Nat :=
  match cs with
  | [] => none
  | c :: rest =>
      if c == '+' then (if rest.isEmpty then none else fsr16_go 0 rest)
      else fsr16_go 0 (c :: rest)

/-- The repository's `parse_hex_u16` (main.rs lines 50-62): trim, reject
empty input, strip a case-insensitive `0x` prefix
(`s.to_lowercase().starts_with("0x")` then `&s[2..]`), then
`u16::from_str_radix(clean, 16)`. -/
def parse_hex_u16 (cs : List Char) : Option Nat :=
  let s := rust_trim cs
  if s.isEmpty then none
  else
    let clean :=
      match s with
      | c0 :: c1 :: rest =>
          if c0 == '0' && (c1 == 'x' || c1 == 'X') then rest else c0 :: c1 :: rest
      | _ => s
    from_str_radix_16 clean

/-! ## Vendor control requests (Protocol Client)

The four `req_*` helpers of main.rs (lines 339-421) build `ControlIn` /
`ControlOut` parameter blocks.  The direction is encoded by which
structure is built (`interface.control_in` vs `interface.control_out` in
the source), mirrored here by the `UsbRequest` sum. -/

inductive CtrlType where
  | standard
  | classType
  | vendor
  deriving DecidableEq, Repr

inductive CtrlRecipient where
  | device
  | interface
  deriving DecidableEq, Repr

structure ControlIn where
  control_type : CtrlType
  recipient : CtrlRecipient
  request : Nat
  value : Nat
  index : Nat
  length : Nat
  deriving DecidableEq, Repr

structure ControlOut where
  control_type : CtrlType
  recipient : CtrlRecipient
  request : Nat
  value : Nat
  index : Nat
  data : List Nat
  deriving DecidableEq, Repr

inductive UsbRequest where
  | reqIn (r : ControlIn)
  | reqOut (r : ControlOut)
  deriving DecidableEq, Repr

def REQ_GET_DBG_MSG : Nat := 0x10
def REQ_GET_WR_REG : Nat := 0x11
def REQ_GET_RD_REG : Nat := 0x12
def REQ_SET_DBG_MSG : Nat := 0x22
def READ_BUFFER_SIZE : Nat := 8

/-- Request built by `req_send_console_cmd` (main.rs lines 339-353). -/
def req_send_console_cmd (data : List Nat) : ControlOut :=
  { control_type := .vendor, recipient := .interface,
    request := REQ_SET_DBG_MSG, value := 0, index := 0, data := data }

/-- Request built by `req_set_dbg_msg_init` (main.rs lines 355-369). -/
def req_set_dbg_msg_init : ControlOut :=
  { control_type := .vendor, recipient := .interface,
    request := REQ_SET_DBG_MSG, value := 0, index := 0, data := [] }

/-- Request built by `req_read_reg` (main.rs lines 371-384). -/
def req_read_reg (addr offset : Nat) : ControlIn :=
  { control_type := .vendor, recipient := .device,
    request := REQ_GET_RD_REG, value := addr, index := offset, length := 8 }

/-- Request built by `req_write_reg` (main.rs lines 386-405):
`let w_value = ((addr & 0xFF) << 8) | (val as u16)` on `u16` values
(no overflow is possible: the shifted operand is at most `0xFF00`). -/
def req_write_reg (addr offset val : Nat) : ControlIn :=
  { control_type := .vendor, recipient := .device,
    request := REQ_GET_WR_REG, value := ((addr &&& 0xFF) <<< 8) ||| val,
    index := offset, length := 0 }

/-- Request built by `req_get_dbg_msg` (main.rs lines 407-421). -/
def req_get_dbg_msg : ControlIn :=
  { control_type := .vendor, recipient := .device,
    request := REQ_GET_DBG_MSG, value := 0, index := 0,
    length := READ_BUFFER_SIZE }

/-! ## Error model

`std::io::ErrorKind` restricted to the kinds this program mentions, plus
a representative for every other kind. -/

inductive ErrorKind where
  | timedOut
  | brokenPipe
  | connectionAborted
  | notConnected
  | notFound
  | other
  deriving DecidableEq, Repr

structure IoError where
  kind : ErrorKind
  deriving DecidableEq, Repr

/-- Modelled from the spec: the error produced by the underlying USB
library for a single control transfer (the repository treats it as an
opaque payload; only the distinction of a timeout from other failures
matters to the claims). -/
inductive TransferError where
  | timedOut
  | disconnected
  | stall
  | fault
  deriving DecidableEq, Repr

/-- The repository's `to_io_err` (main.rs lines 423-425):
`io::Error::new(io::ErrorKind::Other, e)` for an arbitrary error payload,
so the resulting kind is always `Other`. -/
def to_io_err {E : Type} (_e : E) : IoError :=
  { kind := ErrorKind.other }

/-- Error path of `req_get_dbg_msg` (main.rs line 420): every transfer
error is passed through `to_io_err`. -/
def req_get_dbg_msg_result (raw : Except TransferError (List Nat)) :
    Except IoError (List Nat) :=
  raw.mapError to_io_err

/-- The repository's `is_fatal_error` (main.rs lines 327-335). -/
def is_fatal_error (e : IoError) : Bool :=
  match e.kind with
  | .brokenPipe | .connectionAborted | .notConnected => true
  | _ => false

/-- Decision taken by the logger task on an `Err` from `req_get_dbg_msg`
(main.rs lines 216-222): sleep 100 ms and poll again when the kind is
`TimedOut`, otherwise end the session with the error. -/
inductive LoggerErrAction where
  | sleepRetry (ms : Nat)
  | endSession (e : IoError)
  deriving DecidableEq, Repr

def logger_on_err (e : IoError) : LoggerErrAction :=
  if e.kind = ErrorKind.timedOut then .sleepRetry 100 else .endSession e

/-! ## Register Shell (`run_reg_shell`, main.rs lines 257-325)

One iteration of the command loop, as a pure function of the input line
and of oracles giving the device's response to a read or write request
(the `io::Result` value returned by `req_read_reg` / `req_write_reg`).
The record collects everything the iteration does: the USB request it
issues (if any), what it prints, and whether the loop continues, returns
cleanly, or propagates a fatal error. -/

inductive ShellOutcome where
  | next
  | exitClean
  | fatal (e : IoError)
  deriving DecidableEq, Repr

structure ShellStep where
  request : Option UsbRequest
  printedUsage : Bool
  printedIoError : Option IoError
  printedRead : Option (Nat × Nat × List Nat)
  printedWriteDone : Bool
  outcome : ShellOutcome
  deriving DecidableEq, Repr

/-- Iteration result for a line that is skipped without any output:
an empty line (main.rs lines 277-279) or an `r`/`w` line whose hex
tokens fail to parse (the `if let` silently falls through,
main.rs lines 284, 304). -/
def silent_continue : ShellStep :=
  { request := none, printedUsage := false, printedIoError := none,
    printedRead := none, printedWriteDone := false, outcome := .next }

/-- Iteration result for the catch-all arm (main.rs line 321). -/
def usage_error_step : ShellStep :=
  { request := none, printedUsage := true, printedIoError := none,
    printedRead := none, printedWriteDone := false, outcome := .next }

/-- Iteration result for `exit`/`quit`/`q` (main.rs line 320). -/
def exit_step : ShellStep :=
  { request := none, printedUsage := false, printedIoError := none,
    printedRead := none, printedWriteDone := false, outcome := .exitClean }

/-- The `match parts.as_slice()` dispatch (main.rs lines 282-322). -/
def shell_dispatch (parts : List (List Char))
    (readRes : Nat → Nat → Except IoError (List Nat))
    (writeRes : Nat → Nat → Nat → Except IoError (List Nat)) : ShellStep :=
  match parts with
  | [c, addr_s, off_s] =>
      if c == ['r'] then
        match parse_hex_u16 addr_s, parse_hex_u16 off_s with
        | some addr, some off =>
            match readRes addr off with
            | .ok data =>
                { request := some (.reqIn (req_read_reg addr off)),
                  printedUsage := false, printedIoError := none,
                  printedRead := some (addr, off, data),
                  printedWriteDone := false, outcome := .next }
            | .error e =>
                { request := some (.reqIn (req_read_reg addr off)),
                  printedUsage := false, printedIoError := some e,
                  printedRead := none, printedWriteDone := false,
                  outcome := if is_fatal_error e then .fatal e else .next }
        | _, _ => silent_continue
      else usage_error_step
  | [c, addr_s, off_s, val_s] =>
      if c == ['w'] then
        match parse_hex_u16 addr_s, parse_hex_u16 off_s, parse_hex_u16 val_s with
        | some addr, some off, some val =>
            match writeRes addr off (val % 256) with
            | .ok _ =>
                { request := some (.reqIn (req_write_reg addr off (val % 256))),
                  printedUsage := false, printedIoError := none,
                  printedRead := none, printedWriteDone := true,
                  outcome := .next }
            | .error e =>
                { request := some (.reqIn (req_write_reg addr off (val % 256))),
                  printedUsage := false, printedIoError := some e,
                  printedRead := none, printedWriteDone := false,
                  outcome := if is_fatal_error e then .fatal e else .next }
        | _, _, _ => silent_continue
      else usage_error_step
  | [c] =>
      if c == ['e', 'x', 'i', 't'] || c == ['q', 'u', 'i', 't'] || c == ['q'] then
        exit_step
      else usage_error_step
  | _ => usage_error_step

/-- One full iteration of the `run_reg_shell` loop on an input line
(main.rs lines 267-323): trim, skip empty lines silently, otherwise
split into whitespace-separated tokens and dispatch. -/
def run_reg_shell_step (line : List Char)
    (readRes : Nat → Nat → Except IoError (List Nat))
    (writeRes : Nat → Nat → Nat → Except IoError (List Nat)) : ShellStep :=
  let t := rust_trim line
  if t.isEmpty then silent_continue
  else shell_dispatch (split_whitespace t) readRes writeRes

/-! ## Log Console input task (main.rs lines 229-251) -/

inductive IoEvent where
  | storeSuppress (b : Bool)
  | sendCmd (payload : List Char)
  deriving DecidableEq, Repr

/-- Straight-line body of the input task for one received line
(main.rs lines 233-243), as the ordered list of its effects:
`cmd_clean = input_line.trim()`, `cmd_to_send = cmd_clean + '\r'`,
`suppress.store(true)`, then `req_send_console_cmd(cmd_to_send)`. -/
def input_task_on_line (input_line : List Char) : List IoEvent :=
  [IoEvent.storeSuppress true,
   IoEvent.sendCmd (rust_trim input_line ++ ['\r'])]

/-- Session outcome of one input-task iteration (main.rs lines 231-249):
`none` means the loop continues; `some r` means the task returns `r`,
ending the session.  A closed input channel (`recv` fails) returns
`Ok(())`; a failed send returns that error. -/
def input_task_on_recv (received : Option (List Char))
    (sendRes : List Char → Except IoError Unit) : Option (Except IoError Unit) :=
  match received with
  | none => some (Except.ok ())
  | some cs =>
      match sendRes (rust_trim cs ++ ['\r']) with
      | .ok _ => none
      | .error e => some (Except.error e)

/-- Specification-side function: removal of trailing whitespace only,
as the claim words it. -/
def trim_end_only (cs : List Char) : List Char :=
  (cs.reverse.dropWhile is_rust_ws).reverse

/-! ## Reconnect Supervisor (main.rs lines 98-126)

The outer loop is driven by the outcomes of successive
`find_and_open_device` attempts (an oracle list: `fail`, or `ok s` with
`s` identifying the freshly claimed interface) and by the result of the
dispatched session.  The trace records each fixed 1000 ms backoff sleep
(main.rs line 103), each session dispatch, and whether the program
ended via the clean-exit `break` (main.rs line 120). -/

inductive ConnectOutcome where
  | fail
  | ok (sess : Nat)
  deriving DecidableEq, Repr

inductive SessionResult where
  | clean
  | fatal
  deriving DecidableEq, Repr

def RECONNECT_BACKOFF_MS : Nat := 1000

structure SupTrace where
  backoffMs : List Nat
  dispatched : List Nat
  exitedCleanly : Bool
  deriving DecidableEq, Repr

def supervisor_run : List ConnectOutcome → (Nat → SessionResult) → SupTrace
  | [], _ => { backoffMs := [], dispatched := [], exitedCleanly := false }
  | .fail :: rest, res =>
      { backoffMs := RECONNECT_BACKOFF_MS :: (supervisor_run rest res).backoffMs,
        dispatched := (supervisor_run rest res).dispatched,
        exitedCleanly := (supervisor_run rest res).exitedCleanly }
  | .ok s :: rest, res =>
      match res s with
      | .clean => { backoffMs := [], dispatched := [s], exitedCleanly := true }
      | .fatal =>
          { backoffMs := (supervisor_run rest res).backoffMs,
            dispatched := s :: (supervisor_run rest res).dispatched,
            exitedCleanly := (supervisor_run rest res).exitedCleanly }

/-! ## Specification-side definitions used by the claim statements -/

/-- Hexadecimal digit, as the claims word it (`0-9`, `a-f`, `A-F`). -/
def is_hex_digit (c : Char) : Bool :=
  (48 ≤ c.toNat && c.toNat ≤ 57) ||
  (97 ≤ c.toNat && c.toNat ≤ 102) ||
  (65 ≤ c.toNat && c.toNat ≤ 70)

/-- Value of a hex digit string read most-significant first, starting
from an accumulator. -/
def hex_val_from (acc : Nat) (ds : List Char) : Nat :=
  ds.foldl (fun a c => a * 16 + ((hexDigitVal? c).getD 0)) acc

/-- Value of a hex digit string read most-significant first. -/
def hex_val (ds : List Char) : Nat := hex_val_from 0 ds

/-- Shape of the inputs `parse_hex_u16` accepts, written from the
amended claim: after trimming, an optional case-insensitive `0x`
prefix, then an optional single `+` sign, then one or more hex digits
whose value fits in 16 bits. -/
def hex_input_shape (cs : List Char) (v : Nat) : Prop :=
  ∃ pfx sign ds, rust_trim cs = pfx ++ sign ++ ds ∧
    (pfx = [] ∨ pfx = ['0', 'x'] ∨ pfx = ['0', 'X']) ∧
    (sign = [] ∨ sign = ['+']) ∧
    ds ≠ [] ∧ (∀ c ∈ ds, is_hex_digit c = true) ∧
    hex_val ds = v ∧ hex_val ds ≤ 65535

/-- Token lists matched by no arm of the shell's `match` — a wrong
token count or an unknown command word, the claims' "user input error"
classes other than malformed hex. -/
def tokens_without_arm (ts : List (List Char)) : Bool :=
  match ts with
  | [c] => !(c == ['e', 'x', 'i', 't'] || c == ['q', 'u', 'i', 't'] || c == ['q'])
  | [c, _, _] => !(c == ['r'])
  | [c, _, _, _] => !(c == ['w'])
  | _ => true
/-! ### Decoder lemmas -/

theorem process_bytes_cons (st : EchoState) (b : Nat) (rest : List Nat) :
    process_bytes st (b :: rest) =
      ((process_bytes (process_byte st b).1 rest).1,
       (process_byte st b).2 ++ (process_bytes (process_byte st b).1 rest).2) := rfl

theorem process_bytes_append (xs : List Nat) :
    ∀ (st : EchoState) (ys : List Nat),
      process_bytes st (xs ++ ys) =
        ((process_bytes (process_bytes st xs).1 ys).1,
         (process_bytes st xs).2 ++ (process_bytes (process_bytes st xs).1 ys).2) := by
  induction xs with
  | nil => intro st ys; simp [process_bytes]
  | cons b rest ih =>
      intro st ys
      simp [process_bytes_cons, List.cons_append, ih, List.append_assoc]

theorem process_bytes_not_suppressing (bs : List Nat) :
    ∀ lc : Bool,
      (process_bytes ⟨false, lc⟩ bs).2 = bs ∧
      (process_bytes ⟨false, lc⟩ bs).1.suppressing = false := by
  induction bs with
  | nil => intro lc; simp [process_bytes]
  | cons b rest ih =>
      intro lc
      have hb : process_byte ⟨false, lc⟩ b =
          ({ suppressing := false, lastByteWasCR := b == 13 }, [b]) := by
        simp [process_byte]
      simp [process_bytes_cons, hb, ih (b == 13)]

theorem process_bytes_suppressing (bs : List Nat) :
    ∀ lc : Bool,
      (process_bytes ⟨true, lc⟩ bs).2 = (after_first_crlf lc bs).getD [] ∧
      (process_bytes ⟨true, lc⟩ bs).1.suppressing = (after_first_crlf lc bs).isNone := by
  induction bs with
  | nil => intro lc; simp [process_bytes, after_first_crlf]
  | cons b rest ih =>
      intro lc
      by_cases h : (b == 10 && lc) = true
      · have hb : process_byte ⟨true, lc⟩ b =
            ({ suppressing := false, lastByteWasCR := b == 13 }, []) := by
          simp [process_byte, h]
        have hrest := process_bytes_not_suppressing rest (b == 13)
        simp [process_bytes_cons, hb, after_first_crlf, h, hrest.1, hrest.2]
      · have hb : process_byte ⟨true, lc⟩ b =
            ({ suppressing := true, lastByteWasCR := b == 13 }, []) := by
          simp [process_byte, h]
        simp [process_bytes_cons, hb, after_first_crlf, h, ih (b == 13)]

theorem process_frames_eq_bytes (fs : List (List Nat)) :
    ∀ st : EchoState,
      process_frames st fs = process_bytes st ((fs.map frame_valid).flatten) := by
  induction fs with
  | nil => intro st; simp [process_frames, process_bytes]
  | cons f rest ih =>
      intro st
      simp [process_frames, process_frame, List.map_cons, List.flatten_cons,
        process_bytes_append, ih]

theorem frame_valid_eq_takeWhile (l : List Nat) :
    frame_valid l = l.takeWhile (fun b => !(b == 0)) := by
  induction l with
  | nil => rfl
  | cons a l ih =>
      by_cases h : (a == 0) = true
      · simp [frame_valid, List.findIdx_cons, h, List.takeWhile_cons]
      · simp only [frame_valid, List.findIdx_cons] at *
        simp [h, List.takeWhile_cons, List.take_succ_cons, ih]

/-- C1: for every sequence of log frames processed by the echo-suppression
decoder starting from `suppressing = true`, `lastByteWasCR = false`, every
byte of the decoded stream up to and including the first CR-LF pair (even
when the CR and the LF fall in different frames) is dropped, the printed
output is exactly the suffix after that pair, and `suppressing` is false
at the end precisely when that pair was fully consumed (it stays true when
no CR-LF pair occurs, in which case nothing at all is printed). -/
theorem C1_echo_suppression_first_crlf (frames : List (List Nat)) :
    (process_frames ⟨true, false⟩ frames).2
        = (after_first_crlf false ((frames.map frame_valid).flatten)).getD []
      ∧ (process_frames ⟨true, false⟩ frames).1.suppressing
        = (after_first_crlf false ((frames.map frame_valid).flatten)).isNone := by
  rw [process_frames_eq_bytes]
  exact process_bytes_suppressing _ false

/-- C2: for every sequence of log frames processed while `suppressing`
is false, the printed output is exactly the concatenation, in order, of
each frame's bytes up to (but not including) its first zero byte (the
whole frame when it has no zero byte), and `suppressing` remains false,
so no byte at or after a frame's first zero byte is ever printed. -/
theorem C2_passthrough_prints_valid_prefixes (frames : List (List Nat)) (lc : Bool) :
    (process_frames ⟨false, lc⟩ frames).2
        = (frames.map (fun f => f.takeWhile (fun b => !(b == 0)))).flatten
      ∧ (process_frames ⟨false, lc⟩ frames).1.suppressing = false := by
  rw [process_frames_eq_bytes]
  have h := process_bytes_not_suppressing ((frames.map frame_valid).flatten) lc
  refine ⟨?_, h.2⟩
  rw [h.1]
  congr 1
  exact List.map_congr_left fun f _ => frame_valid_eq_takeWhile f


/-! ### Bit-packing helper -/

theorem land_255_eq_mod (a : Nat) : a &&& 255 = a % 256 := by
  have h := Nat.and_pow_two_sub_one_eq_mod a 8
  norm_num at h
  exact h

/-- C3: `req_write_reg` issues an IN (not OUT) vendor control transfer
with request code 0x11, wValue packed as `((addr & 0xFF) << 8) | value`
(hence depending only on the low 8 bits of addr), wIndex = offset and
requested length 0; and the shell's `w` arm issues exactly that request
with the 16-bit-parsed value token truncated to its low 8 bits. -/
theorem C3_write_register_packing :
    (∀ addr offset val : Nat,
        req_write_reg addr offset val =
          { control_type := CtrlType.vendor, recipient := CtrlRecipient.device,
            request := 0x11, value := ((addr &&& 0xFF) <<< 8) ||| val,
            index := offset, length := 0 })
  ∧ (∀ a1 a2 offset val : Nat, a1 % 256 = a2 % 256 →
        (req_write_reg a1 offset val).value = (req_write_reg a2 offset val).value)
  ∧ (∀ addr_s off_s val_s : List Char, ∀ addr off val : Nat,
      ∀ readRes : Nat → Nat → Except IoError (List Nat),
      ∀ writeRes : Nat → Nat → Nat → Except IoError (List Nat),
        parse_hex_u16 addr_s = some addr → parse_hex_u16 off_s = some off →
        parse_hex_u16 val_s = some val →
        (shell_dispatch [['w'], addr_s, off_s, val_s] readRes writeRes).request =
          some (UsbRequest.reqIn (req_write_reg addr off (val % 256)))) := by
  refine ⟨fun _ _ _ => rfl, ?_, ?_⟩
  · intro a1 a2 offset val h
    simp only [req_write_reg, land_255_eq_mod]
    rw [h]
  · intro addr_s off_s val_s addr off val readRes writeRes ha ho hv
    cases hw : writeRes addr off (val % 256) <;>
      simp [shell_dispatch, ha, ho, hv, hw]

/-- C3 witness: the shell line `w 10 0 FF` issues the write request for
addr 0x10, offset 0, value 0xFF, whose wValue is 0x10FF. -/
theorem C3_write_register_packing_witness :
    (shell_dispatch [['w'], ['1', '0'], ['0'], ['F', 'F']]
        (fun _ _ => Except.ok []) (fun _ _ _ => Except.ok [])).request =
      some (UsbRequest.reqIn (req_write_reg 16 0 255))
    ∧ (req_write_reg 16 0 255).value = 0x10FF := by
  exact ⟨C3_write_register_packing.2.2 ['1', '0'] ['0'] ['F', 'F'] 16 0 255
      (fun _ _ => Except.ok []) (fun _ _ _ => Except.ok [])
      (by decide) (by decide) (by decide),
    by decide⟩

/-- C4: the claim says a timeout from `pollLog` is non-fatal (sleep
about 100 ms and poll again) and is distinguishable from other transport
errors where that decision is made.  The code cannot do this:
`to_io_err` wraps every transfer error — a timeout included — as
`io::ErrorKind::Other`, so the `TimedOut` test in the logger task never
matches and every poll error ends the session.  The conjuncts show:
every wrapped error has kind `Other`; the failing input (an underlying
timeout) surfaces with kind `Other`; every error surfaced by
`req_get_dbg_msg` therefore ends the session; yet the (unreachable)
`TimedOut` branch of the logger task would indeed sleep 100 ms,
matching the claimed intent. -/
theorem C4_timeout_indistinguishable :
    (∀ (E : Type) (e : E), (to_io_err e).kind = ErrorKind.other)
  ∧ req_get_dbg_msg_result (Except.error TransferError.timedOut)
      = Except.error { kind := ErrorKind.other }
  ∧ (∀ raw : TransferError,
      logger_on_err (to_io_err raw) = .endSession { kind := ErrorKind.other })
  ∧ logger_on_err { kind := ErrorKind.timedOut } = .sleepRetry 100 := by
  refine ⟨fun _ _ => rfl, rfl, fun _ => rfl, rfl⟩

/-- C5: the error kinds classified fatal by `is_fatal_error` are exactly
broken pipe, connection aborted and not connected; the shell prints a
failed request's error and then propagates it (ending the session) when
it is classified fatal, and continues the loop otherwise — for both the
`r` and the `w` arm. -/
theorem C5_fatal_transport_classification :
    (∀ e : IoError, is_fatal_error e = true ↔
        (e.kind = ErrorKind.brokenPipe ∨ e.kind = ErrorKind.connectionAborted ∨
         e.kind = ErrorKind.notConnected))
  ∧ (∀ addr_s off_s : List Char, ∀ addr off : Nat,
      ∀ readRes : Nat → Nat → Except IoError (List Nat),
      ∀ writeRes : Nat → Nat → Nat → Except IoError (List Nat), ∀ e : IoError,
        parse_hex_u16 addr_s = some addr → parse_hex_u16 off_s = some off →
        readRes addr off = Except.error e →
        (shell_dispatch [['r'], addr_s, off_s] readRes writeRes).printedIoError = some e ∧
        (shell_dispatch [['r'], addr_s, off_s] readRes writeRes).outcome =
          (if is_fatal_error e then ShellOutcome.fatal e else ShellOutcome.next))
  ∧ (∀ addr_s off_s val_s : List Char, ∀ addr off val : Nat,
      ∀ readRes : Nat → Nat → Except IoError (List Nat),
      ∀ writeRes : Nat → Nat → Nat → Except IoError (List Nat), ∀ e : IoError,
        parse_hex_u16 addr_s = some addr → parse_hex_u16 off_s = some off →
        parse_hex_u16 val_s = some val →
        writeRes addr off (val % 256) = Except.error e →
        (shell_dispatch [['w'], addr_s, off_s, val_s] readRes writeRes).printedIoError
            = some e ∧
        (shell_dispatch [['w'], addr_s, off_s, val_s] readRes writeRes).outcome =
          (if is_fatal_error e then ShellOutcome.fatal e else ShellOutcome.next)) := by
  refine ⟨?_, ?_, ?_⟩
  · intro e
    cases e with
    | mk kind => cases kind <;> simp [is_fatal_error]
  · intro addr_s off_s addr off readRes writeRes e ha ho hr
    constructor <;> simp [shell_dispatch, ha, ho, hr]
  · intro addr_s off_s val_s addr off val readRes writeRes e ha ho hv hw
    constructor <;> simp [shell_dispatch, ha, ho, hv, hw]

/-- C5 witness: a read `r 1 2` whose request fails with a broken-pipe
error prints the error and ends the session by propagating it. -/
theorem C5_fatal_transport_classification_witness :
    (shell_dispatch [['r'], ['1'], ['2']]
        (fun _ _ => Except.error { kind := ErrorKind.brokenPipe })
        (fun _ _ _ => Except.ok [])).printedIoError
      = some { kind := ErrorKind.brokenPipe } ∧
    (shell_dispatch [['r'], ['1'], ['2']]
        (fun _ _ => Except.error { kind := ErrorKind.brokenPipe })
        (fun _ _ _ => Except.ok [])).outcome
      = ShellOutcome.fatal { kind := ErrorKind.brokenPipe } := by
  have h := C5_fatal_transport_classification.2.1 ['1'] ['2'] 1 2
    (fun _ _ => Except.error { kind := ErrorKind.brokenPipe })
    (fun _ _ _ => Except.ok []) { kind := ErrorKind.brokenPipe }
    (by decide) (by decide) rfl
  exact ⟨h.1, h.2⟩

/-- C6 counterexample: the claim predicts the payload is the input line
with only trailing whitespace removed, CR-terminated.  For the line
`" x"` the code sends `"x\r"` — the leading space is removed too,
because the source calls `input_line.trim()`. -/
theorem C6_counterexample_leading_whitespace :
    input_task_on_line [' ', 'x'] =
      [IoEvent.storeSuppress true, IoEvent.sendCmd ['x', '\r']]
    ∧ ¬ ([IoEvent.storeSuppress true, IoEvent.sendCmd ['x', '\r']] =
        [IoEvent.storeSuppress true,
         IoEvent.sendCmd (trim_end_only [' ', 'x'] ++ ['\r'])]) := by
  refine ⟨rfl, by decide⟩

/-- C6 amended: the bytes passed to `sendConsoleCommand` are the input
line with leading AND trailing whitespace removed, followed by exactly
one carriage return; the shared suppressing flag is stored true before
the send is issued (first event in program order); a failed send ends
the session with that error; end-of-stream on the input channel ends
the session cleanly; a successful send leaves the loop running. -/
theorem C6_input_line_handling :
    (∀ line : List Char,
        input_task_on_line line =
          [IoEvent.storeSuppress true,
           IoEvent.sendCmd (rust_trim line ++ ['\r'])])
  ∧ (∀ (line : List Char) (sendRes : List Char → Except IoError Unit) (e : IoError),
        sendRes (rust_trim line ++ ['\r']) = Except.error e →
        input_task_on_recv (some line) sendRes = some (Except.error e))
  ∧ (∀ (line : List Char) (sendRes : List Char → Except IoError Unit),
        sendRes (rust_trim line ++ ['\r']) = Except.ok () →
        input_task_on_recv (some line) sendRes = none)
  ∧ (∀ sendRes : List Char → Except IoError Unit,
        input_task_on_recv none sendRes = some (Except.ok ())) := by
  refine ⟨fun _ => rfl, ?_, ?_, fun _ => rfl⟩
  · intro line sendRes e h
    simp [input_task_on_recv, h]
  · intro line sendRes h
    simp [input_task_on_recv, h]

/-- C6 witness: a send failing with a broken pipe ends the session with
that error; a closed input channel ends it cleanly. -/
theorem C6_input_line_handling_witness :
    input_task_on_recv (some ['h', 'i'])
        (fun _ => Except.error { kind := ErrorKind.brokenPipe })
      = some (Except.error { kind := ErrorKind.brokenPipe })
    ∧ input_task_on_recv (none : Option (List Char))
        (fun _ => Except.error { kind := ErrorKind.brokenPipe })
      = some (Except.ok ()) :=
  ⟨C6_input_line_handling.2.1 ['h', 'i'] _ _ rfl,
   C6_input_line_handling.2.2.2 _⟩

/-- C7: after any finite number n of discovery failures followed by a
successful open, the supervisor still dispatches the selected mode with
the session from that successful attempt; when that session completes
cleanly the program ends, having slept the fixed 1000 ms backoff once
per failure; and a run of discovery failures alone never terminates the
program — it backs off 1000 ms per failure and keeps retrying. -/
theorem C7_reconnect_liveness (n s : Nat) (rest : List ConnectOutcome)
    (res : Nat → SessionResult) :
    ((supervisor_run (List.replicate n ConnectOutcome.fail
        ++ ConnectOutcome.ok s :: rest) res).dispatched.head? = some s)
  ∧ (res s = SessionResult.clean →
      supervisor_run (List.replicate n ConnectOutcome.fail
          ++ ConnectOutcome.ok s :: rest) res =
        { backoffMs := List.replicate n RECONNECT_BACKOFF_MS,
          dispatched := [s], exitedCleanly := true })
  ∧ (supervisor_run (List.replicate n ConnectOutcome.fail) res =
        { backoffMs := List.replicate n RECONNECT_BACKOFF_MS,
          dispatched := [], exitedCleanly := false }) := by
  induction n with
  | zero =>
      refine ⟨?_, ?_, rfl⟩
      · cases hres : res s <;> simp [supervisor_run, hres]
      · intro hres
        simp [supervisor_run, hres]
  | succ n ih =>
      refine ⟨?_, ?_, ?_⟩
      · simpa [List.replicate_succ, supervisor_run] using ih.1
      · intro hres
        simp [List.replicate_succ, supervisor_run, ih.2.1 hres]
      · simp [List.replicate_succ, supervisor_run, ih.2.2]

/-- C7 witness: three discovery failures, then success with session 7
and a clean run: three 1000 ms backoffs, one dispatch of session 7,
clean program exit. -/
theorem C7_reconnect_liveness_witness :
    supervisor_run (List.replicate 3 ConnectOutcome.fail
        ++ ConnectOutcome.ok 7 :: []) (fun _ => SessionResult.clean) =
      { backoffMs := [1000, 1000, 1000], dispatched := [7],
        exitedCleanly := true } :=
  (C7_reconnect_liveness 3 7 [] (fun _ => SessionResult.clean)).2.1 rfl

/-- C9 counterexample: the claim says a malformed hex token in an `r`
command prints an error message.  On the line `r zz 0` the code prints
nothing at all — the `if let` over the parse results silently falls
through — though indeed no request is issued and the loop continues. -/
theorem C9_counterexample_silent_malformed_hex :
    run_reg_shell_step ['r', ' ', 'z', 'z', ' ', '0']
        (fun _ _ => Except.ok []) (fun _ _ _ => Except.ok []) = silent_continue
    ∧ silent_continue.printedUsage = false
    ∧ silent_continue.printedIoError = none
    ∧ silent_continue.request = none
    ∧ silent_continue.outcome = ShellOutcome.next := by
  refine ⟨by decide, rfl, rfl, rfl, rfl⟩

/-- C9 amended: every user-input-error line issues no USB request,
leaves the loop running and never ends the session; a wrong token count
or an unknown command prints the usage error, while a malformed hex
token in a correctly shaped `r` or `w` command is skipped silently with
no message. -/
theorem C9_user_input_errors_never_escalate :
    (∀ a o : List Char,
      ∀ readRes : Nat → Nat → Except IoError (List Nat),
      ∀ writeRes : Nat → Nat → Nat → Except IoError (List Nat),
        (parse_hex_u16 a = none ∨ parse_hex_u16 o = none) →
        shell_dispatch [['r'], a, o] readRes writeRes = silent_continue)
  ∧ (∀ a o v : List Char,
      ∀ readRes : Nat → Nat → Except IoError (List Nat),
      ∀ writeRes : Nat → Nat → Nat → Except IoError (List Nat),
        (parse_hex_u16 a = none ∨ parse_hex_u16 o = none ∨ parse_hex_u16 v = none) →
        shell_dispatch [['w'], a, o, v] readRes writeRes = silent_continue)
  ∧ (∀ ts : List (List Char),
      ∀ readRes : Nat → Nat → Except IoError (List Nat),
      ∀ writeRes : Nat → Nat → Nat → Except IoError (List Nat),
        tokens_without_arm ts = true →
        shell_dispatch ts readRes writeRes = usage_error_step) := by
  refine ⟨?_, ?_, ?_⟩
  · intro a o readRes writeRes h
    cases hpa : parse_hex_u16 a <;> cases hpo : parse_hex_u16 o <;>
      simp [hpa, hpo] at h ⊢ <;> simp [shell_dispatch, hpa, hpo]
  · intro a o v readRes writeRes h
    cases hpa : parse_hex_u16 a <;> cases hpo : parse_hex_u16 o <;>
      cases hpv : parse_hex_u16 v <;>
      simp [hpa, hpo, hpv] at h ⊢ <;> simp [shell_dispatch, hpa, hpo, hpv]
  · intro ts readRes writeRes h
    match ts with
    | [] => rfl
    | [c] =>
        simp [tokens_without_arm] at h
        simp [shell_dispatch, h.1.1, h.1.2, h.2]
    | [c, a] => rfl
    | [c, a, o] =>
        simp [tokens_without_arm] at h
        simp [shell_dispatch, h]
    | [c, a, o, v] =>
        simp [tokens_without_arm] at h
        simp [shell_dispatch, h]
    | c :: a :: o :: v :: x :: rest => rfl

/-- C9 witness: `r zz 0` and `w 1 2 zz` are skipped silently; the
two-token line `x 1` prints the usage error; none issues a request or
ends the session. -/
theorem C9_user_input_errors_never_escalate_witness :
    shell_dispatch [['r'], ['z', 'z'], ['0']]
        (fun _ _ => Except.ok []) (fun _ _ _ => Except.ok []) = silent_continue
    ∧ shell_dispatch [['w'], ['1'], ['2'], ['z', 'z']]
        (fun _ _ => Except.ok []) (fun _ _ _ => Except.ok []) = silent_continue
    ∧ shell_dispatch [['x'], ['1']]
        (fun _ _ => Except.ok []) (fun _ _ _ => Except.ok []) = usage_error_step :=
  ⟨C9_user_input_errors_never_escalate.1 _ _ _ _ (Or.inl (by decide)),
   C9_user_input_errors_never_escalate.2.1 _ _ _ _ _
     (Or.inr (Or.inr (by decide))),
   C9_user_input_errors_never_escalate.2.2 _ _ _ (by decide)⟩

/-- C10: a line that is empty or all whitespace trims to the empty
string and is skipped silently — no usage message, no request, the
loop just prompts again. -/
theorem C10_blank_line_skipped (line : List Char)
    (readRes : Nat → Nat → Except IoError (List Nat))
    (writeRes : Nat → Nat → Nat → Except IoError (List Nat))
    (h : rust_trim line = []) :
    run_reg_shell_step line readRes writeRes = silent_continue := by
  simp [run_reg_shell_step, h]

/-- C10 witness: the all-whitespace line `" \t"` is skipped silently. -/
theorem C10_blank_line_skipped_witness :
    run_reg_shell_step [' ', '\t']
        (fun _ _ => Except.ok []) (fun _ _ _ => Except.ok []) = silent_continue :=
  C10_blank_line_skipped _ _ _ (by decide)

/-! ### Hex parser characterization (C8) -/

theorem hexDigitVal?_isSome (c : Char) :
    (hexDigitVal? c).isSome = is_hex_digit c := by
  rw [Bool.eq_iff_iff]
  unfold hexDigitVal? is_hex_digit
  split_ifs with h1 h2 h3 <;>
    simp_all [Bool.or_eq_true, Bool.and_eq_true, decide_eq_true_eq]

theorem hex_val_from_nil (acc : Nat) : hex_val_from acc [] = acc := rfl

theorem hex_val_from_cons (acc : Nat) (c : Char) (ds : List Char) :
    hex_val_from acc (c :: ds) =
      hex_val_from (acc * 16 + ((hexDigitVal? c).getD 0)) ds := rfl

theorem le_hex_val_from (ds : List Char) :
    ∀ acc : Nat, acc ≤ hex_val_from acc ds := by
  induction ds with
  | nil => intro acc; simp [hex_val_from_nil]
  | cons c ds ih =>
      intro acc
      rw [hex_val_from_cons]
      have h := ih (acc * 16 + ((hexDigitVal? c).getD 0))
      omega

theorem fsr16_go_nil_some_iff (acc v : Nat) (hacc : acc ≤ 65535) :
    (fsr16_go acc [] = some v ↔
      ((∀ c ∈ ([] : List Char), is_hex_digit c = true) ∧ hex_val_from acc [] = v ∧
        hex_val_from acc [] ≤ 65535)) := by
  simp only [fsr16_go, hex_val_from_nil, List.not_mem_nil, false_implies, implies_true,
    true_and, Option.some.injEq]
  constructor
  · rintro rfl; exact ⟨rfl, hacc⟩
  · rintro ⟨rfl, -⟩; rfl

theorem fsr16_go_some_iff (ds : List Char) :
    ∀ acc v : Nat, acc ≤ 65535 →
      (fsr16_go acc ds = some v ↔
        ((∀ c ∈ ds, is_hex_digit c = true) ∧ hex_val_from acc ds = v ∧
          hex_val_from acc ds ≤ 65535)) := by
  induction ds with
  | nil => exact fun acc v hacc => fsr16_go_nil_some_iff acc v hacc
  | cons c ds ih =>
      intro acc v hacc
      cases hd : hexDigitVal? c with
      | none =>
          have hih : is_hex_digit c = false := by
            rw [← hexDigitVal?_isSome, hd]; rfl
          have hgo : fsr16_go acc (c :: ds) = none := by
            unfold fsr16_go; rw [hd]
          rw [hgo]
          simp [hih]
      | some d =>
          have hih : is_hex_digit c = true := by
            rw [← hexDigitVal?_isSome, hd]; rfl
          have hv : hex_val_from acc (c :: ds) = hex_val_from (acc * 16 + d) ds := by
            rw [hex_val_from_cons, hd]; rfl
          have hgo : fsr16_go acc (c :: ds) =
              if acc * 16 + d ≤ 65535 then fsr16_go (acc * 16 + d) ds else none := by
            conv_lhs => unfold fsr16_go
            rw [hd]
          by_cases hb : acc * 16 + d ≤ 65535
          · rw [hgo, if_pos hb, ih (acc * 16 + d) v hb, hv]
            simp [hih, List.forall_mem_cons]
          · have hge := le_hex_val_from ds (acc * 16 + d)
            rw [hgo, if_neg hb, hv]
            refine iff_of_false (by simp) ?_
            rintro ⟨-, -, hle⟩
            omega

theorem is_hex_digit_ne_plus {c : Char} (h : is_hex_digit c = true) :
    (c == '+') = false := by
  cases hc : c == '+'
  · rfl
  · have : c = '+' := by exact beq_iff_eq.mp hc
    subst this
    simp [is_hex_digit] at h

theorem from_str_radix_16_some_iff (cs : List Char) (v : Nat) :
    from_str_radix_16 cs = some v ↔
      ∃ sign ds, cs = sign ++ ds ∧ (sign = [] ∨ sign = ['+']) ∧ ds ≠ [] ∧
        (∀ c ∈ ds, is_hex_digit c = true) ∧ hex_val ds = v ∧ hex_val ds ≤ 65535 := by
  constructor
  · intro h
    cases cs with
    | nil => simp [from_str_radix_16] at h
    | cons c rest =>
        by_cases hc : (c == '+') = true
        · have hceq : c = '+' := beq_iff_eq.mp hc
          subst hceq
          rw [from_str_radix_16.eq_def] at h
          simp only [hc, if_true] at h
          cases rest with
          | nil => simp at h
          | cons d tl =>
              simp only [List.isEmpty_cons, if_false, Bool.false_eq_true] at h
              have hp := (fsr16_go_some_iff (d :: tl) 0 v (by omega)).mp h
              exact ⟨['+'], d :: tl, rfl, Or.inr rfl, by simp, hp.1, hp.2.1, hp.2.2⟩
        · have hcf : (c == '+') = false := by simpa using hc
          rw [from_str_radix_16.eq_def] at h
          simp only [hcf, Bool.false_eq_true, if_false] at h
          have hp := (fsr16_go_some_iff (c :: rest) 0 v (by omega)).mp h
          exact ⟨[], c :: rest, rfl, Or.inl rfl, by simp, hp.1, hp.2.1, hp.2.2⟩
  · rintro ⟨sign, ds, hcs, hsign, hds, hhex, hval, hbound⟩
    subst hcs
    rcases hsign with hs | hs
    · subst hs
      cases ds with
      | nil => exact absurd rfl hds
      | cons c tl =>
          have hcf : (c == '+') = false :=
            is_hex_digit_ne_plus (hhex c (List.mem_cons_self c tl))
          rw [List.nil_append, from_str_radix_16.eq_def]
          simp only [hcf, Bool.false_eq_true, if_false]
          exact (fsr16_go_some_iff (c :: tl) 0 v (by omega)).mpr ⟨hhex, hval, hbound⟩
    · subst hs
      cases ds with
      | nil => exact absurd rfl hds
      | cons c tl =>
          rw [from_str_radix_16.eq_def]
          simp only [List.cons_append, List.nil_append, beq_self_eq_true, if_true,
            List.isEmpty_cons, Bool.false_eq_true, if_false]
          exact (fsr16_go_some_iff (c :: tl) 0 v (by omega)).mpr ⟨hhex, hval, hbound⟩

theorem is_hex_digit_ne_x {c : Char} (h : is_hex_digit c = true) :
    (c == 'x') = false := by
  cases hc : c == 'x'
  · rfl
  · have : c = 'x' := beq_iff_eq.mp hc
    subst this
    simp [is_hex_digit] at h

theorem is_hex_digit_ne_X {c : Char} (h : is_hex_digit c = true) :
    (c == 'X') = false := by
  cases hc : c == 'X'
  · rfl
  · have : c = 'X' := beq_iff_eq.mp hc
    subst this
    simp [is_hex_digit] at h

theorem parse_hex_u16_of_trim_nil (cs : List Char) (h : rust_trim cs = []) :
    parse_hex_u16 cs = none := by
  simp [parse_hex_u16, h]

theorem parse_hex_u16_of_trim_single (cs : List Char) (c0 : Char)
    (h : rust_trim cs = [c0]) :
    parse_hex_u16 cs = from_str_radix_16 [c0] := by
  simp [parse_hex_u16, h]

theorem parse_hex_u16_of_trim_two (cs : List Char) (c0 c1 : Char) (rest : List Char)
    (h : rust_trim cs = c0 :: c1 :: rest) :
    parse_hex_u16 cs =
      if c0 == '0' && (c1 == 'x' || c1 == 'X') then from_str_radix_16 rest
      else from_str_radix_16 (c0 :: c1 :: rest) := by
  by_cases hc : (c0 == '0' && (c1 == 'x' || c1 == 'X')) = true
  · simp [parse_hex_u16, h, hc]
  · simp only [Bool.not_eq_true] at hc
    simp [parse_hex_u16, h, hc]

theorem parse_hex_u16_some_iff (cs : List Char) (v : Nat) :
    parse_hex_u16 cs = some v ↔ hex_input_shape cs v := by
  constructor
  · intro h
    rcases htr : rust_trim cs with - | ⟨c0, - | ⟨c1, rest⟩⟩
    · rw [parse_hex_u16_of_trim_nil cs htr] at h
      exact absurd h (by simp)
    · rw [parse_hex_u16_of_trim_single cs c0 htr] at h
      obtain ⟨sign, ds, hsplit, hsign, hds, hhex, hval, hbound⟩ :=
        (from_str_radix_16_some_iff _ _).mp h
      exact ⟨[], sign, ds, by rw [htr, hsplit, List.nil_append], Or.inl rfl,
        hsign, hds, hhex, hval, hbound⟩
    · rw [parse_hex_u16_of_trim_two cs c0 c1 rest htr] at h
      by_cases hc : (c0 == '0' && (c1 == 'x' || c1 == 'X')) = true
      · rw [if_pos hc] at h
        obtain ⟨sign, ds, hsplit, hsign, hds, hhex, hval, hbound⟩ :=
          (from_str_radix_16_some_iff _ _).mp h
        have hc0 : c0 = '0' := beq_iff_eq.mp (Bool.and_eq_true_iff.mp hc).1
        have hc1 : c1 = 'x' ∨ c1 = 'X' := by
          rcases Bool.or_eq_true_iff.mp (Bool.and_eq_true_iff.mp hc).2 with h1 | h1
          · exact Or.inl (beq_iff_eq.mp h1)
          · exact Or.inr (beq_iff_eq.mp h1)
        refine ⟨[c0, c1], sign, ds, ?_, ?_, hsign, hds, hhex, hval, hbound⟩
        · rw [htr, hsplit]; rfl
        · subst hc0
          rcases hc1 with h1 | h1 <;> subst h1
          · exact Or.inr (Or.inl rfl)
          · exact Or.inr (Or.inr rfl)
      · rw [if_neg hc] at h
        obtain ⟨sign, ds, hsplit, hsign, hds, hhex, hval, hbound⟩ :=
          (from_str_radix_16_some_iff _ _).mp h
        exact ⟨[], sign, ds, by rw [htr, hsplit, List.nil_append], Or.inl rfl,
          hsign, hds, hhex, hval, hbound⟩
  · rintro ⟨pfx, sign, ds, htr, hpfx, hsign, hds, hhex, hval, hbound⟩
    have hfsr : from_str_radix_16 (sign ++ ds) = some v :=
      (from_str_radix_16_some_iff _ _).mpr
        ⟨sign, ds, rfl, hsign, hds, hhex, hval, hbound⟩
    rcases hpfx with hp | hp | hp
    · subst hp
      rw [List.nil_append] at htr
      rcases hsign with hsg | hsg
      · subst hsg
        rw [List.nil_append] at htr hfsr
        cases ds with
        | nil => exact absurd rfl hds
        | cons c tl =>
            cases tl with
            | nil => rw [parse_hex_u16_of_trim_single cs c htr]; exact hfsr
            | cons c2 tl2 =>
                rw [parse_hex_u16_of_trim_two cs c c2 tl2 htr]
                have hx := is_hex_digit_ne_x (hhex c2 (by simp))
                have hX := is_hex_digit_ne_X (hhex c2 (by simp))
                rw [if_neg (by rw [hx, hX]; simp)]
                exact hfsr
      · subst hsg
        simp only [List.cons_append, List.nil_append] at htr hfsr
        cases ds with
        | nil => exact absurd rfl hds
        | cons c tl =>
            rw [parse_hex_u16_of_trim_two cs '+' c tl htr]
            rw [if_neg (by rw [show ('+' == '0') = false from rfl]; simp)]
            exact hfsr
    · subst hp
      simp only [List.cons_append, List.nil_append] at htr
      rw [parse_hex_u16_of_trim_two cs '0' 'x' (sign ++ ds) htr]
      rw [if_pos (by decide)]
      exact hfsr
    · subst hp
      simp only [List.cons_append, List.nil_append] at htr
      rw [parse_hex_u16_of_trim_two cs '0' 'X' (sign ++ ds) htr]
      rw [if_pos (by decide)]
      exact hfsr

/-- C8 counterexample: the claim's general sentence — accept an optional
case-insensitive 0x prefix followed by hex digits, reject non-hex-digit
input — fails in both directions: `"+2a"` contains a non-hex-digit
character and parses to 42 (Rust's `from_str_radix` accepts a leading
`+`), and `"FFFFF"` consists solely of hex digits yet is rejected
(its value overflows `u16`). -/
theorem C8_counterexample_plus_and_overflow :
    parse_hex_u16 ['+', '2', 'a'] = some 42
    ∧ is_hex_digit '+' = false
    ∧ parse_hex_u16 ['F', 'F', 'F', 'F', 'F'] = none
    ∧ (∀ c ∈ ['F', 'F', 'F', 'F', 'F'], is_hex_digit c = true) := by
  refine ⟨by decide, by decide, by decide, by decide⟩

/-- C8 amended: `"0x2A"`, `"0X2a"` and `"2a"` all parse to 42, and `""`
and `"zz"` fail; in general `parse_hex_u16` accepts exactly the inputs
that, after whitespace trimming, consist of an optional case-insensitive
`0x` prefix, then an optional single `+` sign, then one or more hex
digits whose value is at most 0xFFFF — and it returns that value. -/
theorem C8_hex_parsing :
    parse_hex_u16 ['0', 'x', '2', 'A'] = some 42
    ∧ parse_hex_u16 ['0', 'X', '2', 'a'] = some 42
    ∧ parse_hex_u16 ['2', 'a'] = some 42
    ∧ parse_hex_u16 [] = none
    ∧ parse_hex_u16 ['z', 'z'] = none
    ∧ (∀ (cs : List Char) (v : Nat),
        parse_hex_u16 cs = some v ↔ hex_input_shape cs v) := by
  exact ⟨by decide, by decide, by decide, by decide, by decide,
    parse_hex_u16_some_iff⟩

/-- C8 witness: instantiating the characterization at `"0x2A"` exhibits
its accepted decomposition. -/
theorem C8_hex_parsing_witness :
    hex_input_shape ['0', 'x', '2', 'A'] 42 :=
  (C8_hex_parsing.2.2.2.2.2 ['0', 'x', '2', 'A'] 42).mp (by decide)
